import Mathlib

/-!
Shallow embedding of `src/etl/pipeline.py` (quiz-response ETL pipeline).

A pandas `DataFrame` read with `dtype="string", keep_default_na=False` is
modelled as a list of column names together with a list of rows; a cell is
either a string or (after the `acertou` coercion) an `int64`, modelled by
`Val`.  A CSV file on disk is a header plus string rows (`CSVFile`); a
possibly-missing file is an `Option CSVFile`.  All operations are translated
from the source line by line; pandas library primitives (`read_csv`,
column assignment, `drop_duplicates`, `sort_values`, `to_csv`, `concat`)
are modelled at the level of their documented semantics on this data.
-/

/-- A cell value: pandas `string` dtype cell, or an `int64` cell produced by
`pd.to_numeric(...).fillna(0).astype("int64")`. -/
inductive Val where
  | s (v : String)
  | i (v : Int)
deriving DecidableEq

/-- An in-memory data frame: ordered column names and rows of cells
(row-major; cell `j` of a row belongs to column `j`). -/
structure DF where
  cols : List String
  rows : List (List Val)
deriving DecidableEq

/-- The content of a CSV file on disk: header row plus data rows, every cell
a string (`dtype="string", keep_default_na=False` reads it back verbatim). -/
structure CSVFile where
  header : List String
  rows : List (List String)
deriving DecidableEq

/-- `REQUIRED_COLUMNS` from `pipeline.py`. -/
def REQUIRED_COLUMNS : List String :=
  ["timestamp", "turma", "aluno", "bloco", "question_id",
   "pergunta", "tipo", "resposta_aluno", "gabarito", "acertou"]

/-- Index of column `c` in a header (first occurrence; one past the end when
absent), mirroring label-based column lookup. -/
def colIdx (cols : List String) (c : String) : Nat :=
  match cols with
  | [] => 0
  | c0 :: rest => if c0 = c then 0 else colIdx rest c + 1

/-- `df[c]` for one row: the cell of row `r` in column `c` of a frame with
header `cols` (defaulting to an empty string cell when out of range). -/
def getCell (cols : List String) (r : List Val) (c : String) : Val :=
  r.getD (colIdx cols c) (Val.s "")

/-- `df[c] = v` with a scalar `v`: overwrite column `c` when present,
otherwise append it on the right with `v` in every row (pandas column
assignment semantics, used by `extract` for the missing-column fill). -/
def DF.setColConst (df : DF) (c : String) (v : Val) : DF :=
  if c ∈ df.cols then
    { df with rows := df.rows.map (fun r => r.set (colIdx df.cols c) v) }
  else
    { cols := df.cols ++ [c], rows := df.rows.map (fun r => r ++ [v]) }

/-- `df[c] = f(df[c])` applied elementwise: overwrite column `c` with the
image of its cells under `f` (used for `.str.strip()` and the `acertou`
coercion in `transform`). -/
def DF.mapCol (df : DF) (c : String) (f : Val → Val) : DF :=
  { df with rows :=
      df.rows.map (fun r => r.set (colIdx df.cols c) (f (getCell df.cols r c))) }

/-- `df[cs]`: column projection / reordering by a list of labels. -/
def DF.select (df : DF) (cs : List String) : DF :=
  { cols := cs, rows := df.rows.map (fun r => cs.map (fun c => getCell df.cols r c)) }

/-- `pd.read_csv(path, dtype="string", keep_default_na=False)`: every cell
comes back as the literal string from the file. -/
def fileToDF (f : CSVFile) : DF :=
  { cols := f.header, rows := f.rows.map (fun r => r.map Val.s) }

/-- `extract` from `pipeline.py`: missing file gives an empty frame with the
required schema; otherwise read the file, add each absent required column as
empty strings, and project to `REQUIRED_COLUMNS`. -/
def extract (raw : Option CSVFile) : DF :=
  match raw with
  | none => { cols := REQUIRED_COLUMNS, rows := [] }
  | some f =>
    let df := fileToDF f
    let df := REQUIRED_COLUMNS.foldl
      (fun d c => if c ∈ d.cols then d else d.setColConst c (Val.s "")) df
    df.select REQUIRED_COLUMNS

/-- Python `str.strip()` whitespace class: the characters for which
`str.isspace()` holds (ASCII whitespace, the C1 separators, and the
Unicode space characters). -/
def isPySpace (c : Char) : Bool :=
  c == ' ' || c == '\t' || c == '\n' || c == '\r' || c == '\x0b' || c == '\x0c' ||
  c == '\x1c' || c == '\x1d' || c == '\x1e' || c == '\x1f' || c == '\x85' ||
  c == '\xa0' || c == '\u1680' || ('\u2000' ≤ c && c ≤ '\u200a') ||
  c == '\u2028' || c == '\u2029' || c == '\u202f' || c == '\u205f' || c == '\u3000'

/-- Python `str.strip()`: drop leading and trailing whitespace. -/
def pyStrip (s : String) : String :=
  String.mk (((s.data.dropWhile isPySpace).reverse.dropWhile isPySpace).reverse)

/-- `series.astype("string").fillna("").str.strip()` on one cell. -/
def stripVal : Val → Val
  | Val.s v => Val.s (pyStrip v)
  | Val.i n => Val.s (pyStrip (toString n))

/-- Digits of a decimal literal to a natural number. -/
def digitsToNat (l : List Char) : Nat :=
  l.foldl (fun a c => a * 10 + (c.toNat - Char.toNat '0')) 0

/-- Outcome of `pd.to_numeric(s, errors="coerce")` on one string cell:
`nan` for unparseable input or a literal NaN spelling, `inf` for an
infinity spelling (or a decimal that overflows `float64`), and `fin v`
for a finite number, already truncated toward zero as the later
`astype("int64")` does. -/
inductive NumParse where
  | nan
  | inf
  | fin (v : Int)
deriving DecidableEq

/-- `pd.to_numeric(s, errors="coerce")` (then truncation toward zero):
after stripping whitespace and lowercasing, accept a sign, the words
`inf` / `infinity` / `nan`, or `digits[.digits][e[sign]digits]`.  Finite
values use exact decimal arithmetic; a decimal exponent that overflows
`float64` is reported as `inf` by the range check in `toNumericChecked`
(its magnitude leaves the `int64` range long before `float64` overflows). -/
def parseToNum (s : String) : NumParse :=
  let t := (pyStrip s).data.map Char.toLower
  let sgnNeg : Bool := match t with
    | '-' :: _ => true
    | _ => false
  let body : List Char := match t with
    | '-' :: rest => rest
    | '+' :: rest => rest
    | _ => t
  if body = ['i', 'n', 'f'] ∨ body = ['i', 'n', 'f', 'i', 'n', 'i', 't', 'y'] then
    NumParse.inf
  else if body = ['n', 'a', 'n'] then
    NumParse.nan
  else
    let ip := body.takeWhile Char.isDigit
    let rest1 := body.dropWhile Char.isDigit
    let fp : List Char := match rest1 with
      | '.' :: r => r.takeWhile Char.isDigit
      | _ => []
    let rest2 : List Char := match rest1 with
      | '.' :: r => r.dropWhile Char.isDigit
      | _ => rest1
    if ip.isEmpty ∧ fp.isEmpty then NumParse.nan
    else
      let eok : Bool := match rest2 with
        | [] => true
        | 'e' :: er =>
          let ebody : List Char := match er with
            | '-' :: r => r
            | '+' :: r => r
            | _ => er
          !ebody.isEmpty && ebody.all Char.isDigit
        | _ => false
      let ev : Int := match rest2 with
        | 'e' :: er =>
          match er with
          | '-' :: r => -(digitsToNat r : Int)
          | '+' :: r => (digitsToNat r : Int)
          | _ => (digitsToNat er : Int)
        | _ => 0
      if !eok then NumParse.nan
      else
        let mant : Nat := digitsToNat (ip ++ fp)
        let scale : Int := ev - (fp.length : Int)
        let mag : Nat :=
          if 0 ≤ scale then mant * 10 ^ scale.toNat
          else mant / 10 ^ (-scale).toNat
        NumParse.fin (if sgnNeg then -(mag : Int) else (mag : Int))

/-- The whole `acertou` coercion chain
`pd.to_numeric(df["acertou"], errors="coerce").fillna(0).astype("int64")`
on one cell, with its error path explicit: NaN (unparseable or literal)
becomes 0 through `fillna`; an infinity makes `astype("int64")` raise
`IntCastingNaNError`, modelled by `none`; a finite value outside the
`int64` range has no well-defined result (the float-to-int cast is
platform-dependent there), also modelled by `none`. -/
def toNumericChecked (v : Val) : Option Int :=
  match v with
  | Val.i n => some n
  | Val.s str =>
    match parseToNum str with
    | NumParse.nan => some 0
    | NumParse.inf => none
    | NumParse.fin n =>
      if -(2 ^ 63) ≤ n ∧ n < 2 ^ 63 then some n else none

/-- The value the `acertou` coercion line of `transform` computes when it
does not raise.  `transform` is modelled as a total function; on the cells
where `toNumericChecked` is `none` the real program raises (or is
platform-dependent), so theorems about `acertou` carry the hypothesis that
`toNumericChecked` succeeds on every row. -/
def toNumericOrZero (v : Val) : Int :=
  (toNumericChecked v).getD 0

/-- The columns stripped by the `limpeza básica` loop in `transform`. -/
def STRIP_COLUMNS : List String :=
  ["turma", "aluno", "bloco", "question_id", "pergunta", "tipo",
   "resposta_aluno", "gabarito"]

/-- The cleaning prefix of `transform`: the strip loop followed by the
`acertou` numeric coercion. -/
def cleanColumns (df : DF) : DF :=
  let df := STRIP_COLUMNS.foldl (fun d c => d.mapCol c stripVal) df
  df.mapCol "acertou" (fun v => Val.i (toNumericOrZero v))

/-- `df = df[df["aluno"] != ""]`: keep the rows whose `aluno` cell differs
from the empty string. -/
def dropEmptyAluno (df : DF) : DF :=
  { df with rows := df.rows.filter (fun r => decide (getCell df.cols r "aluno" ≠ Val.s "")) }

/-- The dedup key of a row: its (`aluno`, `question_id`) cells. -/
def rowKey (cols : List String) (r : List Val) : Val × Val :=
  (getCell cols r "aluno", getCell cols r "question_id")

/-- `df.drop_duplicates(subset=["aluno", "question_id"], keep="last")`:
a row survives exactly when no later row carries the same key; relative
order of survivors is preserved. -/
def dedupKeepLast (cols : List String) : List (List Val) → List (List Val)
  | [] => []
  | r :: rest =>
    if rest.any (fun r2 => decide (rowKey cols r2 = rowKey cols r)) then
      dedupKeepLast cols rest
    else
      r :: dedupKeepLast cols rest

/-- The string contents of a cell, as pandas compares and writes it. -/
def valStr : Val → String
  | Val.s v => v
  | Val.i n => toString n

/-- The integer contents of a cell (summation of an `int64` column). -/
def valInt : Val → Int
  | Val.i n => n
  | Val.s _ => 0

/-- The `sort_values` key of a row: its (`turma`, `aluno`, `bloco`,
`question_id`) cells in priority order, each as its character sequence, so
that the library lexicographic order on `List (List Char)` is exactly
code-point lexicographic comparison of the string tuple. -/
def sortKey (cols : List String) (r : List Val) : List (List Char) :=
  ["turma", "aluno", "bloco", "question_id"].map
    (fun c => (valStr (getCell cols r c)).data)

/-- Row comparison used by
`df.sort_values(by=["turma", "aluno", "bloco", "question_id"])`. -/
def rowLe (cols : List String) (a b : List Val) : Prop :=
  sortKey cols a ≤ sortKey cols b

instance (cols : List String) : DecidableRel (rowLe cols) :=
  fun a b => inferInstanceAs (Decidable (sortKey cols a ≤ sortKey cols b))

/-- The metrics dictionary built by `transform`. -/
structure Metrics where
  linhas_raw : Int
  linhas_curated : Int
  duplicados_removidos : Int
  total_acertos : Int
deriving DecidableEq

/-- `transform` from `pipeline.py`: copy, strip the string columns, coerce
`acertou`, drop empty-`aluno` rows, deduplicate keeping the last row per
(`aluno`, `question_id`), compute the metrics, sort by (`turma`, `aluno`,
`bloco`, `question_id`). -/
def transform (df_raw : DF) : DF × Metrics :=
  let df1 := cleanColumns df_raw
  let df2 := dropEmptyAluno df1
  let before := df2.rows.length
  let df3 : DF := { df2 with rows := dedupKeepLast df2.cols df2.rows }
  let after := df3.rows.length
  let metrics : Metrics :=
    { linhas_raw := (before : Int)
      linhas_curated := (after : Int)
      duplicados_removidos := (before : Int) - (after : Int)
      total_acertos := (df3.rows.map (fun r => valInt (getCell df3.cols r "acertou"))).sum }
  let df4 : DF := { df3 with rows := List.insertionSort (rowLe df3.cols) df3.rows }
  (df4, metrics)

/-- One cell as `to_csv` renders it. -/
def valToCsv : Val → String
  | Val.s v => v
  | Val.i n => toString n

/-- `df.to_csv(path, index=False)`: header line plus one line per row. -/
def dfToCSV (df : DF) : CSVFile :=
  { header := df.cols, rows := df.rows.map (fun r => r.map valToCsv) }

/-- `load` from `pipeline.py`.  `to_csv` opens the destination in write mode,
so the previous curated content (second argument) is discarded wholesale. -/
def load (df_curated : DF) (_priorCurated : Option CSVFile) : CSVFile :=
  dfToCSV df_curated

/-- `run_pipeline` from `pipeline.py`: extract, transform, load; also
returns the curated file content that `load` wrote. -/
def run_pipeline (raw : Option CSVFile) (curated : Option CSVFile) :
    DF × Metrics × CSVFile :=
  let df_raw := extract raw
  let res := transform df_raw
  (res.1, res.2, load res.1 curated)

/-- `pd.concat([a, b], ignore_index=True)` for two frames sharing a header. -/
def concatDF (a b : DF) : DF :=
  { cols := a.cols, rows := a.rows ++ b.rows }

/-- `pd.DataFrame([row], columns=REQUIRED_COLUMNS)`: a one-row frame taking
each required column from the record mapping (a missing key yields NaN,
which `to_csv` renders as the empty string; modelled by the default). -/
def newRowDF (row : List (String × Val)) : DF :=
  { cols := REQUIRED_COLUMNS,
    rows := [REQUIRED_COLUMNS.map (fun c => (List.lookup c row).getD (Val.s ""))] }

/-- `append_raw_row` from `pipeline.py`: re-extract the existing Raw Store,
concatenate the single new record at the end, rewrite the whole file. -/
def append_raw_row (raw : Option CSVFile) (row : List (String × Val)) : CSVFile :=
  let df_existing := extract raw
  let df_new := newRowDF row
  let df_out := concatDF df_existing df_new
  dfToCSV df_out

/-- Shape of every frame produced by `extract`: the required schema and
rows of exactly ten cells. -/
def WfRaw (df : DF) : Prop :=
  df.cols = REQUIRED_COLUMNS ∧ ∀ r ∈ df.rows, r.length = 10

instance (df : DF) : Decidable (WfRaw df) := by
  unfold WfRaw; infer_instance

/-! ### Column lookup lemmas -/

theorem colIdx_lt_length {C : List String} {c : String} (h : c ∈ C) :
    colIdx C c < C.length := by
  induction C with
  | nil => cases h
  | cons c0 rest ih =>
    simp only [colIdx, List.length_cons]
    by_cases h0 : c0 = c
    · simp [h0]
    · have hc : c ∈ rest := by
        rcases List.mem_cons.mp h with h1 | h1
        · exact absurd h1.symm h0
        · exact h1
      simp [h0, Nat.succ_lt_succ (ih hc)]

theorem colIdx_append_left {C : List String} (D : List String) {c : String}
    (h : c ∈ C) : colIdx (C ++ D) c = colIdx C c := by
  induction C with
  | nil => cases h
  | cons c0 rest ih =>
    by_cases h0 : c0 = c
    · simp [colIdx, h0]
    · have hc : c ∈ rest := by
        rcases List.mem_cons.mp h with h1 | h1
        · exact absurd h1.symm h0
        · exact h1
      simp [colIdx, h0, ih hc]

theorem colIdx_append_right {C : List String} (D : List String) {c : String}
    (h : c ∉ C) : colIdx (C ++ D) c = C.length + colIdx D c := by
  induction C with
  | nil => simp [colIdx]
  | cons c0 rest ih =>
    have h0 : c0 ≠ c := fun he => h (he ▸ List.mem_cons_self c0 rest)
    have hr : c ∉ rest := fun hm => h (List.mem_cons_of_mem c0 hm)
    simp [colIdx, h0, ih hr, List.length_cons]
    omega

theorem getD_map_val {r : List String} {i : Nat} (h : i < r.length) :
    (r.map Val.s).getD i (Val.s "") = Val.s (r.getD i "") := by
  rw [List.getD_eq_getElem?_getD, List.getD_eq_getElem?_getD, List.getElem?_map,
    List.getElem?_eq_getElem h]
  simp

theorem getD_replicate_self {α : Type} (n i : Nat) (a : α) :
    (List.replicate n a).getD i a = a := by
  induction n generalizing i with
  | zero => simp [List.getD]
  | succ n ih =>
    cases i with
    | zero => simp [List.replicate_succ]
    | succ i => simp [List.replicate_succ, ih]

/-! ### Characterization of `extract` -/

/-- The required columns absent from a header `C`, in the order the
missing-column loop of `extract` appends them. -/
def missingOf (C : List String) : List String → List String
  | [] => []
  | c :: cs => if c ∈ C then missingOf C cs else c :: missingOf (C ++ [c]) cs

theorem mem_missingOf {c : String} {cs : List String} :
    ∀ {C : List String}, c ∈ cs → c ∉ C → c ∈ missingOf C cs := by
  induction cs with
  | nil => intro C h1 _; cases h1
  | cons c0 cs ih =>
    intro C h1 h2
    by_cases h0 : c0 ∈ C
    · simp only [missingOf, h0, if_pos]
      rcases List.mem_cons.mp h1 with h | h
      · exact absurd (h ▸ h0) h2
      · exact ih h h2
    · simp only [missingOf, h0, if_neg, not_false_iff]
      by_cases hcc : c = c0
      · exact hcc ▸ List.mem_cons_self c0 _
      · have : c ∉ C ++ [c0] := by
          simp [List.mem_append, h2, hcc]
        rcases List.mem_cons.mp h1 with h | h
        · exact absurd h hcc
        · exact List.mem_cons_of_mem c0 (ih h this)

theorem addMissing_foldl (cs : List String) (C : List String) (R : List (List Val)) :
    cs.foldl (fun (d : DF) c => if c ∈ d.cols then d else d.setColConst c (Val.s ""))
      ({ cols := C, rows := R } : DF) =
    { cols := C ++ missingOf C cs,
      rows := R.map (fun r => r ++ List.replicate (missingOf C cs).length (Val.s "")) } := by
  induction cs generalizing C R with
  | nil => simp [missingOf]
  | cons c cs ih =>
    rw [List.foldl_cons]
    by_cases h : c ∈ C
    · have hstep : (if c ∈ ({ cols := C, rows := R } : DF).cols
          then ({ cols := C, rows := R } : DF)
          else ({ cols := C, rows := R } : DF).setColConst c (Val.s "")) =
          ({ cols := C, rows := R } : DF) := by
        simp [h]
      rw [hstep, ih, show missingOf C (c :: cs) = missingOf C cs from by
        simp [missingOf, h]]
    · have hstep : (if c ∈ ({ cols := C, rows := R } : DF).cols
          then ({ cols := C, rows := R } : DF)
          else ({ cols := C, rows := R } : DF).setColConst c (Val.s "")) =
          ({ cols := C ++ [c], rows := R.map (fun r => r ++ [Val.s ""]) } : DF) := by
        simp [DF.setColConst, h]
      rw [hstep, ih, show missingOf C (c :: cs) = c :: missingOf (C ++ [c]) cs from by
        simp [missingOf, h]]
      congr 1
      · simp
      · rw [List.map_map]
        refine List.map_congr_left (fun r _ => ?_)
        simp [List.append_assoc, List.replicate_succ]

/-- Per-row specification of `extract`: each required column is taken from
the on-disk row when the header has it and is the empty string otherwise;
columns outside the required set do not appear. -/
def normalizeRow (header : List String) (r : List String) : List Val :=
  REQUIRED_COLUMNS.map (fun c =>
    if c ∈ header then Val.s (r.getD (colIdx header c) "") else Val.s "")

theorem select_row_eq (f : CSVFile) (r : List String)
    (hrl : r.length = f.header.length) :
    REQUIRED_COLUMNS.map (fun c =>
      getCell (f.header ++ missingOf f.header REQUIRED_COLUMNS)
        (r.map Val.s ++
          List.replicate (missingOf f.header REQUIRED_COLUMNS).length (Val.s "")) c) =
    normalizeRow f.header r := by
  unfold normalizeRow
  refine List.map_congr_left (fun c _ => ?_)
  have hrlen : (r.map Val.s).length = f.header.length := by
    rw [List.length_map]; exact hrl
  by_cases hc : c ∈ f.header
  · simp only [hc, if_pos]
    unfold getCell
    rw [colIdx_append_left _ hc,
      List.getD_append _ _ _ _ (by rw [hrlen]; exact colIdx_lt_length hc),
      getD_map_val (by rw [hrl]; exact colIdx_lt_length hc)]
  · simp only [hc, if_neg, not_false_iff]
    unfold getCell
    rw [colIdx_append_right _ hc,
      List.getD_append_right _ _ _ _ (by omega),
      getD_replicate_self]

theorem extract_some_eq (f : CSVFile)
    (hlen : ∀ r ∈ f.rows, r.length = f.header.length) :
    extract (some f) =
      { cols := REQUIRED_COLUMNS, rows := f.rows.map (normalizeRow f.header) } := by
  have hfold := addMissing_foldl REQUIRED_COLUMNS f.header (f.rows.map (fun r => r.map Val.s))
  show (REQUIRED_COLUMNS.foldl
      (fun (d : DF) c => if c ∈ d.cols then d else d.setColConst c (Val.s ""))
      ({ cols := f.header, rows := f.rows.map (fun r => r.map Val.s) } : DF)).select
      REQUIRED_COLUMNS = _
  rw [hfold]
  unfold DF.select
  refine congrArg (DF.mk REQUIRED_COLUMNS) ?_
  rw [List.map_map, List.map_map]
  exact List.map_congr_left (fun r hr => select_row_eq f r (hlen r hr))

theorem extract_cols (raw : Option CSVFile) : (extract raw).cols = REQUIRED_COLUMNS := by
  cases raw <;> rfl

theorem extract_as_select (f : CSVFile) :
    extract (some f) = DF.select (REQUIRED_COLUMNS.foldl
      (fun (d : DF) c => if c ∈ d.cols then d else d.setColConst c (Val.s ""))
      (fileToDF f)) REQUIRED_COLUMNS := rfl

theorem extract_wf (raw : Option CSVFile) : WfRaw (extract raw) := by
  cases raw with
  | none => exact ⟨rfl, fun r hr => absurd hr (List.not_mem_nil r)⟩
  | some f =>
    rw [extract_as_select]
    refine ⟨rfl, fun r hr => ?_⟩
    unfold DF.select at hr
    simp only at hr
    obtain ⟨r0, _, rfl⟩ := List.mem_map.mp hr
    rw [List.length_map]
    rfl

/-! ### Characterization of the cleaning stage of `transform` -/

theorem transform_fst (df : DF) :
    (transform df).1 =
      { cols := df.cols,
        rows := List.insertionSort (rowLe df.cols)
          (dedupKeepLast df.cols (dropEmptyAluno (cleanColumns df)).rows) } := rfl

theorem transform_snd (df : DF) :
    (transform df).2 =
      { linhas_raw := ((dropEmptyAluno (cleanColumns df)).rows.length : Int)
        linhas_curated :=
          ((dedupKeepLast df.cols (dropEmptyAluno (cleanColumns df)).rows).length : Int)
        duplicados_removidos :=
          ((dropEmptyAluno (cleanColumns df)).rows.length : Int) -
            ((dedupKeepLast df.cols (dropEmptyAluno (cleanColumns df)).rows).length : Int)
        total_acertos :=
          ((dedupKeepLast df.cols (dropEmptyAluno (cleanColumns df)).rows).map
            (fun r => valInt (getCell df.cols r "acertou"))).sum } := rfl

/-! ### Deduplication lemmas -/

theorem getLast?_cons_of_ne_nil {α : Type} {l : List α} (a : α) (h : l ≠ []) :
    (a :: l).getLast? = l.getLast? := by
  rw [List.getLast?_cons]
  obtain ⟨y, hy⟩ := Option.isSome_iff_exists.mp (List.getLast?_isSome.mpr h)
  rw [hy]
  rfl

theorem filter_dedupKeepLast (cols : List String) (k : Val × Val)
    (l : List (List Val)) :
    (dedupKeepLast cols l).filter (fun r => decide (rowKey cols r = k)) =
    (l.filter (fun r => decide (rowKey cols r = k))).getLast?.toList := by
  induction l with
  | nil => rfl
  | cons r rs ih =>
    unfold dedupKeepLast
    by_cases hk : rowKey cols r = k
    · by_cases h1 : rs.any (fun r2 => decide (rowKey cols r2 = rowKey cols r)) = true
      · rw [if_pos h1, ih, List.filter_cons, if_pos (decide_eq_true hk)]
        obtain ⟨r2, hr2mem, hr2key⟩ := List.any_eq_true.mp h1
        have hr2k : rowKey cols r2 = k := (of_decide_eq_true hr2key).trans hk
        have hmem : r2 ∈ rs.filter (fun r => decide (rowKey cols r = k)) :=
          List.mem_filter.mpr ⟨hr2mem, decide_eq_true hr2k⟩
        rw [getLast?_cons_of_ne_nil r (List.ne_nil_of_mem hmem)]
      · rw [if_neg h1, List.filter_cons, if_pos (decide_eq_true hk),
          List.filter_cons, if_pos (decide_eq_true hk), ih]
        have hnil : rs.filter (fun r => decide (rowKey cols r = k)) = [] := by
          refine List.filter_eq_nil_iff.mpr (fun a ha hpa => ?_)
          exact h1 (List.any_eq_true.mpr
            ⟨a, ha, decide_eq_true ((of_decide_eq_true hpa).trans hk.symm)⟩)
        rw [hnil]
        rfl
    · have hpr : (decide (rowKey cols r = k)) = false := decide_eq_false hk
      by_cases h1 : rs.any (fun r2 => decide (rowKey cols r2 = rowKey cols r)) = true
      · rw [if_pos h1, ih, List.filter_cons, hpr]
        rfl
      · rw [if_neg h1, List.filter_cons, hpr, List.filter_cons, hpr]
        simp only [Bool.false_eq_true, if_false]
        exact ih

/-- C1: in the curated table, the rows carrying a given
(`aluno`, `question_id`) key are exactly the last row with that key among
the rows that survive the empty-`aluno` drop — one row when the key occurs,
none otherwise. -/
theorem curated_filter_eq_last (df : DF) (k : Val × Val) :
    (transform df).1.rows.filter (fun r => decide (rowKey df.cols r = k)) =
    ((dropEmptyAluno (cleanColumns df)).rows.filter
      (fun r => decide (rowKey df.cols r = k))).getLast?.toList := by
  have h2 := filter_dedupKeepLast df.cols k (dropEmptyAluno (cleanColumns df)).rows
  have hperm := (List.perm_insertionSort (rowLe df.cols)
      (dedupKeepLast df.cols (dropEmptyAluno (cleanColumns df)).rows)).filter
      (fun r => decide (rowKey df.cols r = k))
  rw [h2] at hperm
  rw [transform_fst]
  show (List.insertionSort (rowLe df.cols)
      (dedupKeepLast df.cols (dropEmptyAluno (cleanColumns df)).rows)).filter
      (fun r => decide (rowKey df.cols r = k)) = _
  cases hgl : ((dropEmptyAluno (cleanColumns df)).rows.filter
      (fun r => decide (rowKey df.cols r = k))).getLast? with
  | none =>
    rw [hgl] at hperm
    exact hperm.eq_nil
  | some x =>
    rw [hgl] at hperm
    exact List.perm_singleton.mp hperm

/-- C6: consecutive curated rows are non-decreasing under lexicographic
comparison of the (`turma`, `aluno`, `bloco`, `question_id`) key tuple. -/
theorem curated_sorted (df : DF) :
    List.Chain' (fun a b => sortKey df.cols a ≤ sortKey df.cols b)
      (transform df).1.rows := by
  rw [transform_fst]
  show List.Chain' _ (List.insertionSort (rowLe df.cols) _)
  haveI ht : IsTrans (List Val) (rowLe df.cols) :=
    ⟨fun a b c hab hbc => le_trans hab hbc⟩
  haveI hto : IsTotal (List Val) (rowLe df.cols) :=
    ⟨fun a b => le_total (sortKey df.cols a) (sortKey df.cols b)⟩
  exact (List.sorted_insertionSort (rowLe df.cols) _).chain'

/-! ### Metric lemmas -/

theorem transform_cols (df : DF) : (transform df).1.cols = df.cols := by
  rw [transform_fst]

/-- The metrics of an empty run. -/
def zeroMetrics : Metrics :=
  { linhas_raw := 0, linhas_curated := 0, duplicados_removidos := 0, total_acertos := 0 }

theorem transform_empty (df : DF) (h : df.rows = []) :
    (transform df).1.rows = [] ∧ (transform df).2 = zeroMetrics := by
  have hclean : (cleanColumns df).rows = [] := by
    obtain ⟨cols, rows⟩ := df
    simp only at h
    subst h
    rfl
  have h2 : (dropEmptyAluno (cleanColumns df)).rows = [] := by
    show (cleanColumns df).rows.filter _ = []
    rw [hclean]
    rfl
  constructor
  · rw [transform_fst]
    show List.insertionSort _ (dedupKeepLast _ (dropEmptyAluno (cleanColumns df)).rows) = []
    rw [h2]
    rfl
  · rw [transform_snd, h2]
    rfl

/-- C3: a missing Raw Store (or one with no data rows) makes `run_pipeline`
return an empty ten-column curated table and all-zero metrics, with no
error. -/
theorem run_pipeline_empty (raw prior : Option CSVFile)
    (h : ∀ f, raw = some f → f.rows = []) :
    (run_pipeline raw prior).1.cols = REQUIRED_COLUMNS ∧
    (run_pipeline raw prior).1.rows = [] ∧
    (run_pipeline raw prior).2.1 = zeroMetrics := by
  have hrows : (extract raw).rows = [] := by
    cases raw with
    | none => rfl
    | some f =>
      have hnil := h f rfl
      have hlen : ∀ r ∈ f.rows, r.length = f.header.length := by
        rw [hnil]; intro r hr; cases hr
      rw [extract_some_eq f hlen, hnil]
      rfl
  have ht := transform_empty (extract raw) hrows
  refine ⟨?_, ht.1, ht.2⟩
  rw [show (run_pipeline raw prior).1 = (transform (extract raw)).1 from rfl,
    transform_cols]
  exact extract_cols raw

theorem run_pipeline_empty_witness :
    (∀ f, (none : Option CSVFile) = some f → f.rows = []) ∧
    ((run_pipeline none none).1.cols = REQUIRED_COLUMNS ∧
     (run_pipeline none none).1.rows = [] ∧
     (run_pipeline none none).2.1 = zeroMetrics) :=
  ⟨(fun _ hf => nomatch hf), run_pipeline_empty none none (fun _ hf => nomatch hf)⟩

/-- C4: for an existing readable raw file, `extract` keeps every row in
order, projects exactly to the ten required columns in their fixed order,
fills absent required columns with empty strings and drops the rest. -/
theorem extract_spec (f : CSVFile)
    (hlen : ∀ r ∈ f.rows, r.length = f.header.length) :
    (extract (some f)).cols = REQUIRED_COLUMNS ∧
    (extract (some f)).rows = f.rows.map (normalizeRow f.header) := by
  rw [extract_some_eq f hlen]
  exact ⟨rfl, rfl⟩

/-- A raw file whose header misses most required columns and carries one
extra column. -/
def fileMixed : CSVFile :=
  { header := ["aluno", "extra", "acertou"],
    rows := [["ana", "x", "1"], ["bia", "y", "0"]] }

theorem extract_spec_witness :
    (∀ r ∈ fileMixed.rows, r.length = fileMixed.header.length) ∧
    ((extract (some fileMixed)).cols = REQUIRED_COLUMNS ∧
     (extract (some fileMixed)).rows = fileMixed.rows.map (normalizeRow fileMixed.header)) :=
  ⟨by decide, extract_spec fileMixed (by decide)⟩

/-- A complete raw data row with the given `aluno`, `question_id` and
`acertou` string values. -/
def sampleRow (al qi ac : String) : List Val :=
  [Val.s "2024-01-01T00:00:00Z", Val.s "T1", Val.s al, Val.s "B1", Val.s qi,
   Val.s "Pq", Val.s "multipla", Val.s "a", Val.s "b", Val.s ac]

/-- A raw table with only 0/1 `acertou` values and one duplicated key. -/
def dfBinaryAcertou : DF :=
  { cols := REQUIRED_COLUMNS,
    rows := [sampleRow "ana" "q1" "1", sampleRow "ana" "q1" "0",
             sampleRow "bia" "q2" "1"] }

/-- The single serialized row that `append_raw_row` builds from a record. -/
def recordRow (row : List (String × Val)) : List String :=
  REQUIRED_COLUMNS.map (fun c => valToCsv ((List.lookup c row).getD (Val.s "")))

/-- C7: appending to a missing Raw Store creates a file with the full
ten-column header and exactly the one new data row; appending to an
existing store rewrites the whole re-extracted content with the new record
placed after all existing rows, in the fixed column order. -/
theorem append_raw_row_spec (row : List (String × Val)) :
    append_raw_row none row =
      { header := REQUIRED_COLUMNS, rows := [recordRow row] } ∧
    ∀ f : CSVFile, append_raw_row (some f) row =
      { header := REQUIRED_COLUMNS,
        rows := (extract (some f)).rows.map (fun r => r.map valToCsv) ++ [recordRow row] } := by
  constructor
  · rfl
  · intro f
    show ({ header := (extract (some f)).cols,
            rows := ((extract (some f)).rows ++ (newRowDF row).rows).map
              (fun r => r.map valToCsv) } : CSVFile) = _
    rw [extract_cols (some f), List.map_append]
    rfl

/-- C8: rerunning the pipeline over an unchanged Raw Store writes exactly
the same curated content: `load` ignores (fully overwrites) whatever the
curated file held before, and `transform` is a pure function, so the
written content does not depend on the prior curated state at all. -/
theorem run_pipeline_idempotent (raw : Option CSVFile)
    (prior prior2 : Option CSVFile) :
    (run_pipeline raw (some (run_pipeline raw prior).2.2)).2.2 =
      (run_pipeline raw prior).2.2 ∧
    (run_pipeline raw prior).2.2 = (run_pipeline raw prior2).2.2 :=
  ⟨rfl, rfl⟩

/-- C10: after appending to an existing Raw Store the on-disk file has
exactly the ten required columns: pre-existing rows are rewritten with
extra columns deleted and missing required columns materialized as empty
strings. -/
theorem append_raw_row_eq (f : CSVFile) (row : List (String × Val)) :
    append_raw_row (some f) row =
      { header := REQUIRED_COLUMNS,
        rows := (extract (some f)).rows.map (fun r => r.map valToCsv) ++
          [recordRow row] } := by
  show ({ header := (extract (some f)).cols,
          rows := ((extract (some f)).rows ++ (newRowDF row).rows).map
            (fun r => r.map valToCsv) } : CSVFile) = _
  rw [extract_cols (some f), List.map_append]
  rfl

theorem append_raw_row_normalizes (f : CSVFile) (row : List (String × Val))
    (hlen : ∀ r ∈ f.rows, r.length = f.header.length) :
    (append_raw_row (some f) row).header = REQUIRED_COLUMNS ∧
    (append_raw_row (some f) row).rows =
      f.rows.map (fun r => REQUIRED_COLUMNS.map (fun c =>
        if c ∈ f.header then r.getD (colIdx f.header c) "" else "")) ++
      [recordRow row] := by
  rw [append_raw_row_eq f row]
  refine ⟨rfl, ?_⟩
  show (extract (some f)).rows.map (fun r => r.map valToCsv) ++ [recordRow row] = _
  rw [extract_some_eq f hlen]
  show (f.rows.map (normalizeRow f.header)).map (fun r => r.map valToCsv) ++ _ = _
  rw [List.map_map]
  refine congrArg₂ (· ++ ·) (List.map_congr_left (fun r _ => ?_)) rfl
  show (normalizeRow f.header r).map valToCsv = _
  unfold normalizeRow
  rw [List.map_map]
  refine List.map_congr_left (fun c _ => ?_)
  show valToCsv (if c ∈ f.header then Val.s (r.getD (colIdx f.header c) "")
    else Val.s "") = _
  by_cases hc : c ∈ f.header
  · rw [if_pos hc, if_pos hc]
    rfl
  · rw [if_neg hc, if_neg hc]
    rfl

/-- A raw file with an extra column and several required columns missing,
plus a complete record to append. -/
def rowFull : List (String × Val) :=
  REQUIRED_COLUMNS.zip
    [Val.s "2024-01-02T00:00:00Z", Val.s "T2", Val.s "dora", Val.s "B2",
     Val.s "q9", Val.s "Pq", Val.s "multipla", Val.s "c", Val.s "c", Val.i 1]

theorem append_raw_row_normalizes_witness :
    (∀ r ∈ fileMixed.rows, r.length = fileMixed.header.length) ∧
    ((append_raw_row (some fileMixed) rowFull).header = REQUIRED_COLUMNS ∧
     (append_raw_row (some fileMixed) rowFull).rows =
       fileMixed.rows.map (fun r => REQUIRED_COLUMNS.map (fun c =>
         if c ∈ fileMixed.header then r.getD (colIdx fileMixed.header c) "" else "")) ++
       [recordRow rowFull]) :=
  ⟨by decide, append_raw_row_normalizes fileMixed rowFull (by decide)⟩

/-! ### Mutation model for `transform` (frame condition) -/

/-- A heap of data-frame objects; a reference is an index into it. -/
abbrev Heap := List DF

/-- Dereference (out-of-range gives a dummy empty frame). -/
def heapGet (h : Heap) (r : Nat) : DF := h.getD r { cols := [], rows := [] }

/-- In-place update of the object behind a reference. -/
def heapSet (h : Heap) (r : Nat) (v : DF) : Heap := h.set r v

/-- `transform` with Python object semantics made explicit: `df_raw` is a
reference into a heap of frames; `df = df_raw.copy()` allocates a fresh
object at the end of the heap, each in-place column assignment of the
cleaning loop writes through the `df` reference, and the filter-`copy`,
`drop_duplicates` and `sort_values` steps allocate fresh objects that the
local name `df` is rebound to.  Returns the final heap, the reference to
the curated frame, and the metrics. -/
def transformMut (h0 : Heap) (df_raw : Nat) : Heap × Nat × Metrics :=
  let df := h0.length
  let h := h0 ++ [heapGet h0 df_raw]
  let h := STRIP_COLUMNS.foldl
    (fun hh c => heapSet hh df ((heapGet hh df).mapCol c stripVal)) h
  let h := heapSet h df
    ((heapGet h df).mapCol "acertou" (fun v => Val.i (toNumericOrZero v)))
  let df2 := h.length
  let h := h ++ [dropEmptyAluno (heapGet h df)]
  let before := (heapGet h df2).rows.length
  let df3 := h.length
  let h := h ++ [{ heapGet h df2 with
    rows := dedupKeepLast (heapGet h df2).cols (heapGet h df2).rows }]
  let after := (heapGet h df3).rows.length
  let metrics : Metrics :=
    { linhas_raw := (before : Int)
      linhas_curated := (after : Int)
      duplicados_removidos := (before : Int) - (after : Int)
      total_acertos := ((heapGet h df3).rows.map
        (fun r => valInt (getCell (heapGet h df3).cols r "acertou"))).sum }
  let df4 := h.length
  let h := h ++ [{ heapGet h df3 with
    rows := List.insertionSort (rowLe (heapGet h df3).cols) (heapGet h df3).rows }]
  (h, df4, metrics)

theorem heapGet_set_ne (h : Heap) {i j : Nat} (v : DF) (hij : j ≠ i) :
    heapGet (heapSet h i v) j = heapGet h j := by
  unfold heapGet heapSet
  rw [List.getD_eq_getElem?_getD, List.getD_eq_getElem?_getD,
    List.getElem?_set_ne (fun he => hij he.symm)]

theorem heapGet_append_lt (h : Heap) (v : DF) {j : Nat} (hj : j < h.length) :
    heapGet (h ++ [v]) j = heapGet h j := by
  unfold heapGet
  exact List.getD_append _ _ _ _ hj

theorem heapGet_foldl_set (cs : List String) (i : Nat)
    (F : Heap → String → DF) (h : Heap) {j : Nat} (hj : j ≠ i) :
    heapGet (cs.foldl (fun hh c => heapSet hh i (F hh c)) h) j = heapGet h j := by
  induction cs generalizing h with
  | nil => rfl
  | cons c cs ih => rw [List.foldl_cons, ih, heapGet_set_ne _ _ hj]

theorem length_foldl_set (cs : List String) (i : Nat)
    (F : Heap → String → DF) (h : Heap) :
    (cs.foldl (fun hh c => heapSet hh i (F hh c)) h).length = h.length := by
  induction cs generalizing h with
  | nil => rfl
  | cons c cs ih =>
    rw [List.foldl_cons, ih]
    exact List.length_set h i _

/-- C9: `transform` does not mutate its argument — every in-place update
inside the function targets the copy made on entry (or a later fresh
object), so the object the caller passed in is bit-for-bit unchanged when
`transform` returns. -/
theorem transform_no_mutation (h0 : Heap) (df_raw : Nat)
    (hlt : df_raw < h0.length) :
    heapGet (transformMut h0 df_raw).1 df_raw = heapGet h0 df_raw := by
  have hne : df_raw ≠ h0.length := Nat.ne_of_lt hlt
  let h1 : Heap := h0 ++ [heapGet h0 df_raw]
  let h2 : Heap := STRIP_COLUMNS.foldl
    (fun hh c => heapSet hh h0.length ((heapGet hh h0.length).mapCol c stripVal)) h1
  let h3 : Heap := heapSet h2 h0.length
    ((heapGet h2 h0.length).mapCol "acertou" (fun v => Val.i (toNumericOrZero v)))
  let h4 : Heap := h3 ++ [dropEmptyAluno (heapGet h3 h0.length)]
  let h5 : Heap := h4 ++ [{ heapGet h4 h3.length with
    rows := dedupKeepLast (heapGet h4 h3.length).cols (heapGet h4 h3.length).rows }]
  let h6 : Heap := h5 ++ [{ heapGet h5 h4.length with
    rows := List.insertionSort (rowLe (heapGet h5 h4.length).cols)
      (heapGet h5 h4.length).rows }]
  have hl1 : h1.length = h0.length + 1 := by
    show (h0 ++ [heapGet h0 df_raw]).length = h0.length + 1
    simp
  have hl2 : h2.length = h1.length := length_foldl_set _ _ _ _
  have hl3 : h3.length = h2.length := List.length_set _ _ _
  have hl4 : h4.length = h3.length + 1 := by
    show (h3 ++ [dropEmptyAluno (heapGet h3 h0.length)]).length = h3.length + 1
    simp
  have hl5 : h5.length = h4.length + 1 := by
    show (List.length (h4 ++ [_])) = h4.length + 1
    simp
  have step6 : heapGet h6 df_raw = heapGet h5 df_raw :=
    heapGet_append_lt h5 _ (by omega)
  have step5 : heapGet h5 df_raw = heapGet h4 df_raw :=
    heapGet_append_lt h4 _ (by omega)
  have step4 : heapGet h4 df_raw = heapGet h3 df_raw :=
    heapGet_append_lt h3 _ (by omega)
  have step3 : heapGet h3 df_raw = heapGet h2 df_raw :=
    heapGet_set_ne h2 _ hne
  have step2 : heapGet h2 df_raw = heapGet h1 df_raw :=
    heapGet_foldl_set _ _ _ h1 hne
  have step1 : heapGet h1 df_raw = heapGet h0 df_raw :=
    heapGet_append_lt h0 _ hlt
  exact (((((step6.trans step5).trans step4).trans step3).trans step2).trans step1)

/-- A one-object heap for exercising `transformMut`. -/
def heapOne : Heap := [dfBinaryAcertou]

theorem transform_no_mutation_witness :
    0 < heapOne.length ∧
    heapGet (transformMut heapOne 0).1 0 = heapGet heapOne 0 :=
  ⟨by decide, transform_no_mutation heapOne 0 (by decide)⟩

theorem heapGet_append_self (h : Heap) (v : DF) : heapGet (h ++ [v]) h.length = v := by
  unfold heapGet
  rw [List.getD_eq_getElem?_getD, List.getElem?_append_right (Nat.le_refl _),
    Nat.sub_self]
  rfl

theorem heapGet_set_self (h : Heap) (i : Nat) (v : DF) (hi : i < h.length) :
    heapGet (heapSet h i v) i = v := by
  unfold heapGet heapSet
  rw [List.getD_eq_getElem?_getD, List.getElem?_set_self hi]
  rfl

theorem heapGet_foldl_set_self (cs : List String) (i : Nat) (G : DF → String → DF) :
    ∀ h : Heap, i < h.length →
      heapGet (cs.foldl (fun hh c => heapSet hh i (G (heapGet hh i) c)) h) i =
        cs.foldl G (heapGet h i) := by
  induction cs with
  | nil => intro h _; rfl
  | cons c cs ih =>
    intro h hi
    rw [List.foldl_cons, List.foldl_cons,
      ih _ (by rw [show (heapSet h i (G (heapGet h i) c)).length = h.length from
        List.length_set h i _]; exact hi),
      heapGet_set_self h i _ hi]

/-- Sanity check of the mutation model: it returns the same curated frame
and the same metrics as the pure `transform`. -/
theorem transformMut_agrees (h0 : Heap) (df_raw : Nat) :
    heapGet (transformMut h0 df_raw).1 (transformMut h0 df_raw).2.1 =
      (transform (heapGet h0 df_raw)).1 ∧
    (transformMut h0 df_raw).2.2 = (transform (heapGet h0 df_raw)).2 := by
  let h1 : Heap := h0 ++ [heapGet h0 df_raw]
  let h2 : Heap := STRIP_COLUMNS.foldl
    (fun hh c => heapSet hh h0.length ((heapGet hh h0.length).mapCol c stripVal)) h1
  let h3 : Heap := heapSet h2 h0.length
    ((heapGet h2 h0.length).mapCol "acertou" (fun v => Val.i (toNumericOrZero v)))
  let h4 : Heap := h3 ++ [dropEmptyAluno (heapGet h3 h0.length)]
  let h5 : Heap := h4 ++ [{ heapGet h4 h3.length with
    rows := dedupKeepLast (heapGet h4 h3.length).cols (heapGet h4 h3.length).rows }]
  have hl1 : h1.length = h0.length + 1 := by
    show (h0 ++ [heapGet h0 df_raw]).length = h0.length + 1
    simp
  have hl2 : h2.length = h1.length := length_foldl_set _ _ _ _
  have g1 : heapGet h1 h0.length = heapGet h0 df_raw := heapGet_append_self h0 _
  have g2 : heapGet h2 h0.length = STRIP_COLUMNS.foldl
      (fun d c => d.mapCol c stripVal) (heapGet h1 h0.length) :=
    heapGet_foldl_set_self STRIP_COLUMNS h0.length
      (fun d c => d.mapCol c stripVal) h1 (by omega)
  have g3 : heapGet h3 h0.length = (heapGet h2 h0.length).mapCol "acertou"
      (fun v => Val.i (toNumericOrZero v)) :=
    heapGet_set_self h2 h0.length _ (by omega)
  have g4 : heapGet h4 h3.length = dropEmptyAluno (heapGet h3 h0.length) :=
    heapGet_append_self h3 _
  have g5 : heapGet h5 h4.length = { heapGet h4 h3.length with
      rows := dedupKeepLast (heapGet h4 h3.length).cols (heapGet h4 h3.length).rows } :=
    heapGet_append_self h4 _
  constructor
  · show heapGet (h5 ++ [{ heapGet h5 h4.length with
        rows := List.insertionSort (rowLe (heapGet h5 h4.length).cols)
          (heapGet h5 h4.length).rows }]) h5.length = (transform (heapGet h0 df_raw)).1
    rw [heapGet_append_self h5 _, g5, g4, g3, g2, g1, transform_fst]
    rfl
  · show ({ linhas_raw := (((heapGet h4 h3.length).rows.length : Nat) : Int)
            linhas_curated := (((heapGet h5 h4.length).rows.length : Nat) : Int)
            duplicados_removidos := (((heapGet h4 h3.length).rows.length : Nat) : Int) -
              (((heapGet h5 h4.length).rows.length : Nat) : Int)
            total_acertos := ((heapGet h5 h4.length).rows.map
              (fun r => valInt (getCell (heapGet h5 h4.length).cols r "acertou"))).sum } :
        Metrics) = (transform (heapGet h0 df_raw)).2
    rw [g5, g4, g3, g2, g1, transform_snd]
    rfl
